import Mathlib

/-!
Verification of the `server_fn` error-and-response protocol
(`src/server_fn/src/error.rs`, `src/server_fn/src/response/http.rs`,
`src/server_fn/src/response/reqwest.rs`).

The development shallowly embeds:
 * the `ServerFnErrorErr` taxonomy and its wire codec `ser`/`de`
   (the live enum in `error.rs:226-253` has seven variants; unlike the
   commented-out previous version of the enum it has no `ServerError`
   variant, and `ser`/`de` in `error.rs:166-215` handle only those seven),
 * the Rust `{:?}` debug quoting of `&str` used by the `de` fallback
   (`format!("Could not deserialize error {data:?}")`), down to the
   Unicode tables behind `char::escape_debug_ext` (grapheme-extended and
   non-printable code points, generated from UCD 14.0.0),
 * the URL error channel (`ServerFnUrlError::to_url` and
   `ServerFnUrlError::strip_error_info`) on top of a byte-level model of
   the `url`/`form_urlencoded` crates: UTF-8 encoding of strings,
   `application/x-www-form-urlencoded` serialization
   (space to `+`, unreserved bytes kept, everything else `%XX` upper hex)
   and parsing (split on `&`, drop empty pieces, split each piece at the
   first `=`, `+` to space, percent-decode, lossy UTF-8 decode),
 * the outbound response operations `error_response` and `redirect` over the
   `http` crate's builder (header-value validity: tab or byte 32..255
   except DEL) and the inbound `try_into_stream` of the reqwest adapter,
 * the `ViaError` autoref dispatch used by `server_fn_error!`, as the
   Rust method-probe order over reference depths.

The URL model keeps the pre-query prefix of a parsed URL verbatim
(host/path normalization of the WHATWG parser is not modelled: every claim
below concerns only the query-pair component, the only component the
source functions manipulate, and the parse-failure/no-op control flow).
-/

namespace ServerFnSpec

set_option maxRecDepth 16384

/-! ### The error taxonomy (`error.rs:226-253`, the live enum) -/

/-- The seven variants of the live `ServerFnErrorErr` enum. -/
inductive ServerFnErrorErr : Type where
  | Registration (msg : String)
  | Request (msg : String)
  | Deserialization (msg : String)
  | Serialization (msg : String)
  | Args (msg : String)
  | MissingArg (msg : String)
  | Response (msg : String)
deriving DecidableEq

/-- `Display` for `ServerFnErrorErr`, generated by the `#[error(...)]`
attributes in `error.rs:233-252`. -/
def ServerFnErrorErr.display : ServerFnErrorErr → String
  | .Registration s => "error while trying to register the server function: " ++ s
  | .Request s => "error reaching server to call server function: " ++ s
  | .Deserialization s => "error deserializing server function results: " ++ s
  | .Serialization s => "error serializing server function arguments: " ++ s
  | .Args s => "error deserializing server function arguments: " ++ s
  | .MissingArg s => "missing argument " ++ s
  | .Response s => "error creating response " ++ s

/-! ### The wire codec (`error.rs:166-215`) -/

/-- `ServerFnErrorSerde::ser` (`error.rs:167-187`): `write!(buf, "Tag|{e}")`
per variant.  `write!` into a `String` cannot fail, so the `Result` the
source returns is always `Ok`; `ser` is the string it carries. -/
def ServerFnErrorErr.ser : ServerFnErrorErr → String
  | .Registration e => "Registration|" ++ e
  | .Request e => "Request|" ++ e
  | .Deserialization e => "Deserialization|" ++ e
  | .Serialization e => "Serialization|" ++ e
  | .Args e => "Args|" ++ e
  | .MissingArg e => "MissingArg|" ++ e
  | .Response e => "Response|" ++ e

/-- The `Result<String, std::fmt::Error>` actually returned by
`ServerFnErrorSerde::ser`; the error branch is unreachable because the
`fmt::Write` impl of `String` never errors. -/
def ServerFnErrorErr.serRes (e : ServerFnErrorErr) : Except Unit String :=
  Except.ok e.ser

/-- Rust `str::split_once`: split at the first occurrence of `d`. -/
def splitOnce (d : Char) : List Char → Option (List Char × List Char)
  | [] => none
  | c :: rest =>
    if c = d then some ([], rest)
    else (splitOnce d rest).map (fun p => (c :: p.1, p.2))

/-- Lower-case hex digit, as used by Rust in `\u{...}` escapes. -/
def hexCharLower (n : Nat) : Char :=
  if n < 10 then Char.ofNat (48 + n) else Char.ofNat (87 + n)

/-- Hex digits of `n`, lower case, no leading zeros (`0` for zero); the
fuel (any value `≥ n` works, and `n` itself is used) only makes the
recursion structural. -/
def natHexCharsAux : Nat → Nat → List Char
  | 0, n => [hexCharLower n]
  | fuel + 1, n =>
    if n < 16 then [hexCharLower n]
    else natHexCharsAux fuel (n / 16) ++ [hexCharLower (n % 16)]

/-- Hex digits of `n`, lower case, no leading zeros (`0` for zero). -/
def natHexChars (n : Nat) : List Char := natHexCharsAux n n

/-- The set of scalar values (inclusive ranges) that Rust's
`char::escape_debug_ext` renders as a `\u{...}` escape once the
backslash-escaped specials are handled: a code point is in the set iff it
has the `Grapheme_Extend` property (`char::is_grapheme_extended`) or is not
printable (`core::unicode::printable::is_printable`, whose generated table
escapes exactly the general categories Cc, Cf, Cs, Co, Cn, Zl and Zp).
The ranges are generated from the Unicode Character Database revision
14.0.0 by that rule (`Grapheme_Extend` ∪ {Cc, Cf, Cs, Co, Cn, Zl, Zp});
the std regenerates its tables as the UCD advances, so toolchains on a
later UCD print verbatim the code points assigned after 14.0.0. -/
def rustEscapedRanges : List (Nat × Nat) := [
  (0, 31), (127, 159), (173, 173), (768, 879), (888, 889), (896, 899),
  (907, 907), (909, 909), (930, 930), (1155, 1161), (1328, 1328), (1367, 1368),
  (1419, 1420), (1424, 1469), (1471, 1471), (1473, 1474), (1476, 1477), (1479, 1487),
  (1515, 1518), (1525, 1541), (1552, 1562), (1564, 1564), (1611, 1631), (1648, 1648),
  (1750, 1757), (1759, 1764), (1767, 1768), (1770, 1773), (1806, 1807), (1809, 1809),
  (1840, 1868), (1958, 1968), (1970, 1983), (2027, 2035), (2043, 2045), (2070, 2073),
  (2075, 2083), (2085, 2087), (2089, 2095), (2111, 2111), (2137, 2141), (2143, 2143),
  (2155, 2159), (2191, 2207), (2250, 2306), (2362, 2362), (2364, 2364), (2369, 2376),
  (2381, 2381), (2385, 2391), (2402, 2403), (2433, 2433), (2436, 2436), (2445, 2446),
  (2449, 2450), (2473, 2473), (2481, 2481), (2483, 2485), (2490, 2492), (2494, 2494),
  (2497, 2502), (2505, 2506), (2509, 2509), (2511, 2523), (2526, 2526), (2530, 2533),
  (2558, 2562), (2564, 2564), (2571, 2574), (2577, 2578), (2601, 2601), (2609, 2609),
  (2612, 2612), (2615, 2615), (2618, 2621), (2625, 2648), (2653, 2653), (2655, 2661),
  (2672, 2673), (2677, 2677), (2679, 2690), (2692, 2692), (2702, 2702), (2706, 2706),
  (2729, 2729), (2737, 2737), (2740, 2740), (2746, 2748), (2753, 2760), (2762, 2762),
  (2765, 2767), (2769, 2783), (2786, 2789), (2802, 2808), (2810, 2817), (2820, 2820),
  (2829, 2830), (2833, 2834), (2857, 2857), (2865, 2865), (2868, 2868), (2874, 2876),
  (2878, 2879), (2881, 2886), (2889, 2890), (2893, 2907), (2910, 2910), (2914, 2917),
  (2936, 2946), (2948, 2948), (2955, 2957), (2961, 2961), (2966, 2968), (2971, 2971),
  (2973, 2973), (2976, 2978), (2981, 2983), (2987, 2989), (3002, 3006), (3008, 3008),
  (3011, 3013), (3017, 3017), (3021, 3023), (3025, 3045), (3067, 3072), (3076, 3076),
  (3085, 3085), (3089, 3089), (3113, 3113), (3130, 3132), (3134, 3136), (3141, 3159),
  (3163, 3164), (3166, 3167), (3170, 3173), (3184, 3190), (3201, 3201), (3213, 3213),
  (3217, 3217), (3241, 3241), (3252, 3252), (3258, 3260), (3263, 3263), (3266, 3266),
  (3269, 3270), (3273, 3273), (3276, 3292), (3295, 3295), (3298, 3301), (3312, 3312),
  (3315, 3329), (3341, 3341), (3345, 3345), (3387, 3388), (3390, 3390), (3393, 3397),
  (3401, 3401), (3405, 3405), (3408, 3411), (3415, 3415), (3426, 3429), (3456, 3457),
  (3460, 3460), (3479, 3481), (3506, 3506), (3516, 3516), (3518, 3519), (3527, 3535),
  (3538, 3543), (3551, 3557), (3568, 3569), (3573, 3584), (3633, 3633), (3636, 3646),
  (3655, 3662), (3676, 3712), (3715, 3715), (3717, 3717), (3723, 3723), (3748, 3748),
  (3750, 3750), (3761, 3761), (3764, 3772), (3774, 3775), (3781, 3781), (3783, 3791),
  (3802, 3803), (3808, 3839), (3864, 3865), (3893, 3893), (3895, 3895), (3897, 3897),
  (3912, 3912), (3949, 3966), (3968, 3972), (3974, 3975), (3981, 4029), (4038, 4038),
  (4045, 4045), (4059, 4095), (4141, 4144), (4146, 4151), (4153, 4154), (4157, 4158),
  (4184, 4185), (4190, 4192), (4209, 4212), (4226, 4226), (4229, 4230), (4237, 4237),
  (4253, 4253), (4294, 4294), (4296, 4300), (4302, 4303), (4681, 4681), (4686, 4687),
  (4695, 4695), (4697, 4697), (4702, 4703), (4745, 4745), (4750, 4751), (4785, 4785),
  (4790, 4791), (4799, 4799), (4801, 4801), (4806, 4807), (4823, 4823), (4881, 4881),
  (4886, 4887), (4955, 4959), (4989, 4991), (5018, 5023), (5110, 5111), (5118, 5119),
  (5789, 5791), (5881, 5887), (5906, 5908), (5910, 5918), (5938, 5939), (5943, 5951),
  (5970, 5983), (5997, 5997), (6001, 6015), (6068, 6069), (6071, 6077), (6086, 6086),
  (6089, 6099), (6109, 6111), (6122, 6127), (6138, 6143), (6155, 6159), (6170, 6175),
  (6265, 6271), (6277, 6278), (6313, 6313), (6315, 6319), (6390, 6399), (6431, 6434),
  (6439, 6440), (6444, 6447), (6450, 6450), (6457, 6463), (6465, 6467), (6510, 6511),
  (6517, 6527), (6572, 6575), (6602, 6607), (6619, 6621), (6679, 6680), (6683, 6685),
  (6742, 6742), (6744, 6752), (6754, 6754), (6757, 6764), (6771, 6783), (6794, 6799),
  (6810, 6815), (6830, 6915), (6964, 6970), (6972, 6972), (6978, 6978), (6989, 6991),
  (7019, 7027), (7039, 7041), (7074, 7077), (7080, 7081), (7083, 7085), (7142, 7142),
  (7144, 7145), (7149, 7149), (7151, 7153), (7156, 7163), (7212, 7219), (7222, 7226),
  (7242, 7244), (7305, 7311), (7355, 7356), (7368, 7378), (7380, 7392), (7394, 7400),
  (7405, 7405), (7412, 7412), (7416, 7417), (7419, 7423), (7616, 7679), (7958, 7959),
  (7966, 7967), (8006, 8007), (8014, 8015), (8024, 8024), (8026, 8026), (8028, 8028),
  (8030, 8030), (8062, 8063), (8117, 8117), (8133, 8133), (8148, 8149), (8156, 8156),
  (8176, 8177), (8181, 8181), (8191, 8191), (8203, 8207), (8232, 8238), (8288, 8303),
  (8306, 8307), (8335, 8335), (8349, 8351), (8385, 8447), (8588, 8591), (9255, 9279),
  (9291, 9311), (11124, 11125), (11158, 11158), (11503, 11505), (11508, 11512), (11558, 11558),
  (11560, 11564), (11566, 11567), (11624, 11630), (11633, 11647), (11671, 11679), (11687, 11687),
  (11695, 11695), (11703, 11703), (11711, 11711), (11719, 11719), (11727, 11727), (11735, 11735),
  (11743, 11775), (11870, 11903), (11930, 11930), (12020, 12031), (12246, 12271), (12284, 12287),
  (12330, 12335), (12352, 12352), (12439, 12442), (12544, 12548), (12592, 12592), (12687, 12687),
  (12772, 12783), (12831, 12831), (42125, 42127), (42183, 42191), (42540, 42559), (42607, 42610),
  (42612, 42621), (42654, 42655), (42736, 42737), (42744, 42751), (42955, 42959), (42962, 42962),
  (42964, 42964), (42970, 42993), (43010, 43010), (43014, 43014), (43019, 43019), (43045, 43046),
  (43052, 43055), (43066, 43071), (43128, 43135), (43204, 43213), (43226, 43249), (43263, 43263),
  (43302, 43309), (43335, 43345), (43348, 43358), (43389, 43394), (43443, 43443), (43446, 43449),
  (43452, 43453), (43470, 43470), (43482, 43485), (43493, 43493), (43519, 43519), (43561, 43566),
  (43569, 43570), (43573, 43583), (43587, 43587), (43596, 43596), (43598, 43599), (43610, 43611),
  (43644, 43644), (43696, 43696), (43698, 43700), (43703, 43704), (43710, 43711), (43713, 43713),
  (43715, 43738), (43756, 43757), (43766, 43776), (43783, 43784), (43791, 43792), (43799, 43807),
  (43815, 43815), (43823, 43823), (43884, 43887), (44005, 44005), (44008, 44008), (44013, 44015),
  (44026, 44031), (55204, 55215), (55239, 55242), (55292, 63743), (64110, 64111), (64218, 64255),
  (64263, 64274), (64280, 64284), (64286, 64286), (64311, 64311), (64317, 64317), (64319, 64319),
  (64322, 64322), (64325, 64325), (64451, 64466), (64912, 64913), (64968, 64974), (64976, 65007),
  (65024, 65039), (65050, 65071), (65107, 65107), (65127, 65127), (65132, 65135), (65141, 65141),
  (65277, 65280), (65438, 65439), (65471, 65473), (65480, 65481), (65488, 65489), (65496, 65497),
  (65501, 65503), (65511, 65511), (65519, 65531), (65534, 65535), (65548, 65548), (65575, 65575),
  (65595, 65595), (65598, 65598), (65614, 65615), (65630, 65663), (65787, 65791), (65795, 65798),
  (65844, 65846), (65935, 65935), (65949, 65951), (65953, 65999), (66045, 66175), (66205, 66207),
  (66257, 66272), (66300, 66303), (66340, 66348), (66379, 66383), (66422, 66431), (66462, 66462),
  (66500, 66503), (66518, 66559), (66718, 66719), (66730, 66735), (66772, 66775), (66812, 66815),
  (66856, 66863), (66916, 66926), (66939, 66939), (66955, 66955), (66963, 66963), (66966, 66966),
  (66978, 66978), (66994, 66994), (67002, 67002), (67005, 67071), (67383, 67391), (67414, 67423),
  (67432, 67455), (67462, 67462), (67505, 67505), (67515, 67583), (67590, 67591), (67593, 67593),
  (67638, 67638), (67641, 67643), (67645, 67646), (67670, 67670), (67743, 67750), (67760, 67807),
  (67827, 67827), (67830, 67834), (67868, 67870), (67898, 67902), (67904, 67967), (68024, 68027),
  (68048, 68049), (68097, 68111), (68116, 68116), (68120, 68120), (68150, 68159), (68169, 68175),
  (68185, 68191), (68256, 68287), (68325, 68330), (68343, 68351), (68406, 68408), (68438, 68439),
  (68467, 68471), (68498, 68504), (68509, 68520), (68528, 68607), (68681, 68735), (68787, 68799),
  (68851, 68857), (68900, 68911), (68922, 69215), (69247, 69247), (69290, 69292), (69294, 69295),
  (69298, 69375), (69416, 69423), (69446, 69456), (69466, 69487), (69506, 69509), (69514, 69551),
  (69580, 69599), (69623, 69631), (69633, 69633), (69688, 69702), (69710, 69713), (69744, 69744),
  (69747, 69748), (69750, 69761), (69811, 69814), (69817, 69818), (69821, 69821), (69826, 69839),
  (69865, 69871), (69882, 69890), (69927, 69931), (69933, 69941), (69960, 69967), (70003, 70003),
  (70007, 70017), (70070, 70078), (70089, 70092), (70095, 70095), (70112, 70112), (70133, 70143),
  (70162, 70162), (70191, 70193), (70196, 70196), (70198, 70199), (70206, 70271), (70279, 70279),
  (70281, 70281), (70286, 70286), (70302, 70302), (70314, 70319), (70367, 70367), (70371, 70383),
  (70394, 70401), (70404, 70404), (70413, 70414), (70417, 70418), (70441, 70441), (70449, 70449),
  (70452, 70452), (70458, 70460), (70462, 70462), (70464, 70464), (70469, 70470), (70473, 70474),
  (70478, 70479), (70481, 70492), (70500, 70655), (70712, 70719), (70722, 70724), (70726, 70726),
  (70748, 70748), (70750, 70750), (70754, 70783), (70832, 70832), (70835, 70840), (70842, 70842),
  (70845, 70845), (70847, 70848), (70850, 70851), (70856, 70863), (70874, 71039), (71087, 71087),
  (71090, 71095), (71100, 71101), (71103, 71104), (71132, 71167), (71219, 71226), (71229, 71229),
  (71231, 71232), (71237, 71247), (71258, 71263), (71277, 71295), (71339, 71339), (71341, 71341),
  (71344, 71349), (71351, 71351), (71354, 71359), (71370, 71423), (71451, 71455), (71458, 71461),
  (71463, 71471), (71495, 71679), (71727, 71735), (71737, 71738), (71740, 71839), (71923, 71934),
  (71943, 71944), (71946, 71947), (71956, 71956), (71959, 71959), (71984, 71984), (71990, 71990),
  (71993, 71996), (71998, 71998), (72003, 72003), (72007, 72015), (72026, 72095), (72104, 72105),
  (72148, 72155), (72160, 72160), (72165, 72191), (72193, 72202), (72243, 72248), (72251, 72254),
  (72263, 72271), (72273, 72278), (72281, 72283), (72330, 72342), (72344, 72345), (72355, 72367),
  (72441, 72703), (72713, 72713), (72752, 72765), (72767, 72767), (72774, 72783), (72813, 72815),
  (72848, 72872), (72874, 72880), (72882, 72883), (72885, 72959), (72967, 72967), (72970, 72970),
  (73009, 73029), (73031, 73039), (73050, 73055), (73062, 73062), (73065, 73065), (73103, 73106),
  (73109, 73109), (73111, 73111), (73113, 73119), (73130, 73439), (73459, 73460), (73465, 73647),
  (73649, 73663), (73714, 73726), (74650, 74751), (74863, 74863), (74869, 74879), (75076, 77711),
  (77811, 77823), (78895, 82943), (83527, 92159), (92729, 92735), (92767, 92767), (92778, 92781),
  (92863, 92863), (92874, 92879), (92910, 92916), (92918, 92927), (92976, 92982), (92998, 93007),
  (93018, 93018), (93026, 93026), (93048, 93052), (93072, 93759), (93851, 93951), (94027, 94031),
  (94088, 94098), (94112, 94175), (94180, 94191), (94194, 94207), (100344, 100351), (101590, 101631),
  (101641, 110575), (110580, 110580), (110588, 110588), (110591, 110591), (110883, 110927), (110931, 110947),
  (110952, 110959), (111356, 113663), (113771, 113775), (113789, 113791), (113801, 113807), (113818, 113819),
  (113821, 113822), (113824, 118607), (118724, 118783), (119030, 119039), (119079, 119080), (119141, 119141),
  (119143, 119145), (119150, 119170), (119173, 119179), (119210, 119213), (119275, 119295), (119362, 119364),
  (119366, 119519), (119540, 119551), (119639, 119647), (119673, 119807), (119893, 119893), (119965, 119965),
  (119968, 119969), (119971, 119972), (119975, 119976), (119981, 119981), (119994, 119994), (119996, 119996),
  (120004, 120004), (120070, 120070), (120075, 120076), (120085, 120085), (120093, 120093), (120122, 120122),
  (120127, 120127), (120133, 120133), (120135, 120137), (120145, 120145), (120486, 120487), (120780, 120781),
  (121344, 121398), (121403, 121452), (121461, 121461), (121476, 121476), (121484, 122623), (122655, 123135),
  (123181, 123190), (123198, 123199), (123210, 123213), (123216, 123535), (123566, 123583), (123628, 123631),
  (123642, 123646), (123648, 124895), (124903, 124903), (124908, 124908), (124911, 124911), (124927, 124927),
  (125125, 125126), (125136, 125183), (125252, 125258), (125260, 125263), (125274, 125277), (125280, 126064),
  (126133, 126208), (126270, 126463), (126468, 126468), (126496, 126496), (126499, 126499), (126501, 126502),
  (126504, 126504), (126515, 126515), (126520, 126520), (126522, 126522), (126524, 126529), (126531, 126534),
  (126536, 126536), (126538, 126538), (126540, 126540), (126544, 126544), (126547, 126547), (126549, 126550),
  (126552, 126552), (126554, 126554), (126556, 126556), (126558, 126558), (126560, 126560), (126563, 126563),
  (126565, 126566), (126571, 126571), (126579, 126579), (126584, 126584), (126589, 126589), (126591, 126591),
  (126602, 126602), (126620, 126624), (126628, 126628), (126634, 126634), (126652, 126703), (126706, 126975),
  (127020, 127023), (127124, 127135), (127151, 127152), (127168, 127168), (127184, 127184), (127222, 127231),
  (127406, 127461), (127491, 127503), (127548, 127551), (127561, 127567), (127570, 127583), (127590, 127743),
  (128728, 128732), (128749, 128751), (128765, 128767), (128884, 128895), (128985, 128991), (129004, 129007),
  (129009, 129023), (129036, 129039), (129096, 129103), (129114, 129119), (129160, 129167), (129198, 129199),
  (129202, 129279), (129620, 129631), (129646, 129647), (129653, 129655), (129661, 129663), (129671, 129679),
  (129709, 129711), (129723, 129727), (129734, 129743), (129754, 129759), (129768, 129775), (129783, 129791),
  (129939, 129939), (129995, 130031), (130042, 131071), (173792, 173823), (177977, 177983), (178206, 178207),
  (183970, 183983), (191457, 194559), (195102, 196607), (201547, 1114111)]

/-- A character `char::escape_debug_ext` renders as `\u{...}` (after the
backslash-escaped specials): grapheme-extended or not printable. -/
def rustEscapedUnicode (c : Char) : Bool :=
  rustEscapedRanges.any (fun r => r.1 ≤ c.toNat ∧ c.toNat ≤ r.2)

/-- One character of Rust's `str` `Debug` escaping: `char::escape_debug_ext`
with `escape_grapheme_extended: true`, `escape_single_quote: false`,
`escape_double_quote: true`, mirroring its match arms in order: `\0`,
`\t`, `\r`, `\n`, `\\` and `"` become two-character backslash escapes,
a grapheme-extended or non-printable character becomes `\u{hex}` (lower
case, no leading zeros), anything else stands for itself. -/
def escapeDebugChar (c : Char) : List Char :=
  if c = '\x00' then ['\\', '0']
  else if c = '\t' then ['\\', 't']
  else if c = '\r' then ['\\', 'r']
  else if c = '\n' then ['\\', 'n']
  else if c = '\\' then ['\\', '\\']
  else if c = '"' then ['\\', '"']
  else if rustEscapedUnicode c then
    ['\\', 'u', '{'] ++ natHexChars c.toNat ++ ['}']
  else [c]

/-- Rust `format!("{:?}", s)` for a string slice `s`. -/
def rustDebugQuote (s : String) : String :=
  String.mk ('"' :: (s.data.map escapeDebugChar).flatten ++ ['"'])

/-- The tag match inside `ServerFnErrorSerde::de` (`error.rs:191-208`):
`Some(variant)` for the seven known tags, `None` otherwise. -/
def tagLookup (ty data : String) : Option ServerFnErrorErr :=
  if ty = "Registration" then some (.Registration data)
  else if ty = "Request" then some (.Request data)
  else if ty = "Response" then some (.Response data)
  else if ty = "Deserialization" then some (.Deserialization data)
  else if ty = "Serialization" then some (.Serialization data)
  else if ty = "Args" then some (.Args data)
  else if ty = "MissingArg" then some (.MissingArg data)
  else none

/-- `ServerFnErrorSerde::de` (`error.rs:189-214`):
`data.split_once('|').and_then(tag match).unwrap_or_else(fallback)`. -/
def ServerFnErrorErr.de (data : String) : ServerFnErrorErr :=
  ((splitOnce '|' data.data).bind
      (fun p => tagLookup (String.mk p.1) (String.mk p.2))).getD
    (.Deserialization ("Could not deserialize error " ++ rustDebugQuote data))

/-- `de` recognizes its input: the `and_then` chain produced `Some`. -/
def deRecognized (data : String) : Bool :=
  ((splitOnce '|' data.data).bind
    (fun p => tagLookup (String.mk p.1) (String.mk p.2))).isSome

/-! ### Outbound responses (`response/http.rs`) -/

/-- `SERVER_FN_ERROR_HEADER` (`error.rs:9`). -/
def SERVER_FN_ERROR_HEADER : String := "serverfnerror"

/-- An `http::Response` with a string body, as built by the outbound
interface. -/
structure HttpResponse where
  status : Nat
  headers : List (String × String)
  body : String
deriving DecidableEq

/-- Validity of a character in an `http::HeaderValue` built from a `&str`:
the `http` crate accepts horizontal tab and any byte in `32..=255` except
DEL; on UTF-8 text this is exactly "tab, or a character that is neither a
C0 control nor DEL". -/
def validHeaderValueChar (c : Char) : Bool :=
  c.toNat = 9 ∨ (32 ≤ c.toNat ∧ c.toNat ≠ 127)

/-- A string is representable as an `http::HeaderValue` iff every character
is valid. -/
def validHeaderValue (s : String) : Bool :=
  s.data.all validHeaderValueChar

/-- The builder chain inside `Res::error_response` (`http.rs:56-62`):
status 500, the error-marker header set to the call path, body
`err.ser().unwrap_or_else(|_| err.to_string())`.  `none` models the builder
returning `Err` — on which the source's final `.unwrap()` panics.  The only
fallible step is converting `path` into a header value (the status and the
header name are fixed and valid, and any string is a valid body). -/
def errorResponseBuilt (path : String) (err : ServerFnErrorErr) :
    Option HttpResponse :=
  if validHeaderValue path then
    some { status := 500,
           headers := [(SERVER_FN_ERROR_HEADER, path)],
           body := match err.serRes with
             | .ok s => s
             | .error _ => err.display }
  else none

/-- `http::HeaderMap::insert`: replaces any existing value under the key. -/
def insertHeader (hs : List (String × String)) (k v : String) :
    List (String × String) :=
  hs.filter (fun p => p.1 ≠ k) ++ [(k, v)]

/-- `Res::redirect` (`http.rs:64-69`): if the target path is a valid header
value, set the `Location` header and status 302 Found; otherwise leave the
response untouched. -/
def redirect (r : HttpResponse) (path : String) : HttpResponse :=
  if validHeaderValue path then
    { r with status := 302, headers := insertHeader r.headers "location" path }
  else r

/-! ### `ViaError` autoref dispatch (`error.rs:18-66`)

`server_fn_error!($err)` calls `(&&WrapError(error)).to_server_error()`
(`error.rs:27`).  Rust resolves the method over the receiver's deref chain,
trying, for each number `d` of references reachable by dereferencing the
receiver, first an impl whose `Self` has exactly `d` references and then
one with `d + 1` (one level of autoref); the first impl whose `Self` shape
and bounds match wins.  The three impls in the source are keyed by the
reference depth of their `Self` type:
`&&&&WrapError<ServerFnErrorErr>` at depth 4 (`error.rs:40`),
`&WrapError<E: Display + Clone>` at depth 1 (`error.rs:48`), and
`WrapError<E>` at depth 0 (`error.rs:56`, the panicking fallback). -/

/-- The three `ViaError` impls of `error.rs`. -/
inductive ViaErrorImpl : Type where
  | specialized
  | displayClone
  | fallbackImpl
deriving DecidableEq

/-- Candidate `Self` reference depths probed for a receiver behind
`recvDepth` references, in Rust's method-probe order: for each deref step
`d = recvDepth, recvDepth - 1, ..., 0`, first `d` (by value) then `d + 1`
(autoref). -/
def probeDepths (recvDepth : Nat) : List Nat :=
  ((List.range (recvDepth + 1)).reverse).flatMap (fun d => [d, d + 1])

/-- Method resolution over the three impls, given whether the wrapped type
is `ServerFnErrorErr` and whether it satisfies `Display + Clone`. -/
def resolveViaError (recvDepth : Nat)
    (innerIsServerFnErrorErr innerDisplayClone : Bool) : Option ViaErrorImpl :=
  (probeDepths recvDepth).findSome? (fun d =>
    if d = 4 ∧ innerIsServerFnErrorErr = true then some .specialized
    else if d = 1 ∧ innerDisplayClone = true then some .displayClone
    else if d = 0 then some .fallbackImpl
    else none)

/-- The receiver depth produced by `server_fn_error!`: `(&&WrapError(error))`
is two references deep. -/
def serverFnErrorMacroReceiverDepth : Nat := 2

/-! ### Inbound responses (`response/reqwest.rs`) -/

/-- A client (`reqwest`) response, reduced to what `try_into_stream` reads:
the sequence of items of `bytes_stream()`, each a byte chunk or a transport
error (kept as its rendered text). -/
structure ReqwestResponse where
  chunks : List (Except String (List Nat))

/-- `ClientRes::try_into_stream` (`reqwest.rs:20-29`): unconditionally
`Ok(self.bytes_stream().map_err(|e| ServerFnErrorErr::Response(e.to_string())))`. -/
def tryIntoStream (r : ReqwestResponse) :
    Except ServerFnErrorErr (List (Except ServerFnErrorErr (List Nat))) :=
  .ok (r.chunks.map (fun c => match c with
    | .ok bs => .ok bs
    | .error e => .error (.Response e)))

/-! ### Byte-level UTF-8

Strings cross the `url` / `form_urlencoded` machinery as UTF-8 bytes; the
model makes that explicit.  Bytes are `Nat`s (< 256 wherever they come from
an encoder). -/

/-- UTF-8 encoding of one scalar value. -/
def utf8EncodeChar (c : Char) : List Nat :=
  if c.toNat < 128 then [c.toNat]
  else if c.toNat < 2048 then [192 + c.toNat / 64, 128 + c.toNat % 64]
  else if c.toNat < 65536 then
    [224 + c.toNat / 4096, 128 + c.toNat / 64 % 64, 128 + c.toNat % 64]
  else
    [240 + c.toNat / 262144, 128 + c.toNat / 4096 % 64,
     128 + c.toNat / 64 % 64, 128 + c.toNat % 64]

/-- UTF-8 bytes of a character list. -/
def utf8Bytes (l : List Char) : List Nat :=
  (l.map utf8EncodeChar).flatten

/-- UTF-8 bytes of a string. -/
def strBytes (s : String) : List Nat := utf8Bytes s.data

/-- U+FFFD, the replacement character of lossy UTF-8 decoding. -/
def replacementChar : Char := Char.ofNat 65533

/-- A UTF-8 continuation byte. -/
def isCont (b : Nat) : Bool := 128 ≤ b ∧ b < 192

/-- One step of lossy UTF-8 decoding, on a lead byte `b` followed by
`rest`: `some (scalar, remainder)` when `b` starts a well-formed sequence,
`none` otherwise.  The checks on the second byte reject overlong forms
(`E0`/`F0` leads) and scalar values outside the Unicode range (`ED` leads
to surrogates, `F4` past U+10FFFF), exactly the sequences a valid `Char`
never encodes to. -/
def utf8DecodeOne (b : Nat) (rest : List Nat) : Option (Nat × List Nat) :=
  if b < 128 then some (b, rest)
  else if 194 ≤ b ∧ b < 224 then
    match rest with
    | b2 :: rest2 =>
      if isCont b2 then some ((b - 192) * 64 + (b2 - 128), rest2) else none
    | [] => none
  else if 224 ≤ b ∧ b < 240 then
    match rest with
    | b2 :: b3 :: rest2 =>
      if isCont b2 ∧ isCont b3 ∧ (b = 224 → 160 ≤ b2) ∧ (b = 237 → b2 < 160) then
        some ((b - 224) * 4096 + (b2 - 128) * 64 + (b3 - 128), rest2)
      else none
    | _ => none
  else if 240 ≤ b ∧ b < 245 then
    match rest with
    | b2 :: b3 :: b4 :: rest2 =>
      if isCont b2 ∧ isCont b3 ∧ isCont b4 ∧ (b = 240 → 144 ≤ b2) ∧
          (b = 244 → b2 < 144) then
        some ((b - 240) * 262144 + (b2 - 128) * 4096 +
            (b3 - 128) * 64 + (b4 - 128), rest2)
      else none
    | _ => none
  else none

/-- Lossy UTF-8 decoding with explicit fuel (each step consumes at least
one byte, so any fuel `≥` the list length computes the full result). -/
def utf8DecodeLossyAux : Nat → List Nat → List Char
  | 0, _ => []
  | _, [] => []
  | fuel + 1, b :: rest =>
    match utf8DecodeOne b rest with
    | some p => Char.ofNat p.1 :: utf8DecodeLossyAux fuel p.2
    | none => replacementChar :: utf8DecodeLossyAux fuel rest

/-- Lossy UTF-8 decoding (`String::from_utf8_lossy`): well-formed sequences
decode to their scalar value, an ill-formed lead byte produces U+FFFD and
decoding continues after it. -/
def utf8DecodeLossy (l : List Nat) : List Char :=
  utf8DecodeLossyAux l.length l

/-! ### The `form_urlencoded` codec -/

/-- Bytes the `form_urlencoded` serializer leaves unescaped:
`*`, `-`, `.`, `0-9`, `A-Z`, `_`, `a-z`. -/
def unreservedByte (b : Nat) : Bool :=
  (48 ≤ b ∧ b ≤ 57) ∨ (65 ≤ b ∧ b ≤ 90) ∨ (97 ≤ b ∧ b ≤ 122) ∨
    b = 42 ∨ b = 45 ∨ b = 46 ∨ b = 95

/-- Upper-case hex digit as a byte. -/
def hexDigitUpper (n : Nat) : Nat := if n < 10 then 48 + n else 55 + n

/-- `form_urlencoded` serialization of one byte: space to `+`, unreserved
bytes kept, everything else `%XX`. -/
def encByte (b : Nat) : List Nat :=
  if b = 32 then [43]
  else if unreservedByte b then [b]
  else [37, hexDigitUpper (b / 16), hexDigitUpper (b % 16)]

/-- `form_urlencoded` serialization of a byte sequence. -/
def serBytes (bs : List Nat) : List Nat := (bs.map encByte).flatten

/-- Value of a hex digit byte, either case. -/
def hexVal? (b : Nat) : Option Nat :=
  if 48 ≤ b ∧ b ≤ 57 then some (b - 48)
  else if 65 ≤ b ∧ b ≤ 70 then some (b - 55)
  else if 97 ≤ b ∧ b ≤ 102 then some (b - 87)
  else none

/-- One step of `form_urlencoded` component decoding on byte `b` followed
by `rest`: `+` to space, `%XY` (two hex digits) to a byte, a `%` not
followed by two hex digits kept literally. -/
def percentDecodeOne (b : Nat) (rest : List Nat) : Nat × List Nat :=
  if b = 43 then (32, rest)
  else if b = 37 then
    match rest with
    | h :: l :: rest2 =>
      match hexVal? h, hexVal? l with
      | some x, some y => (x * 16 + y, rest2)
      | _, _ => (37, rest)
    | _ => (37, rest)
  else (b, rest)

/-- `form_urlencoded` component decoding with explicit fuel (each step
consumes at least one byte). -/
def percentPlusDecodeAux : Nat → List Nat → List Nat
  | 0, _ => []
  | _, [] => []
  | fuel + 1, b :: rest =>
    (percentDecodeOne b rest).1 ::
      percentPlusDecodeAux fuel (percentDecodeOne b rest).2

/-- `form_urlencoded` component decoding, byte by byte. -/
def percentPlusDecode (l : List Nat) : List Nat :=
  percentPlusDecodeAux l.length l

/-- Decode one query component to a string (percent-decode, then lossy
UTF-8). -/
def decodeComp (bs : List Nat) : String :=
  String.mk (utf8DecodeLossy (percentPlusDecode bs))

/-- Split a byte list at every occurrence of `d` (like Rust `split(d)`:
`n` separators yield `n + 1` pieces, possibly empty). -/
def splitSep (d : Nat) : List Nat → List (List Nat)
  | [] => [[]]
  | b :: rest =>
    if b = d then [] :: splitSep d rest
    else
      match splitSep d rest with
      | [] => [[b]]
      | x :: xs => (b :: x) :: xs

/-- Split a byte list at the first occurrence of `d`, keeping whether one
was found. -/
def splitFirst (d : Nat) : List Nat → List Nat × Option (List Nat)
  | [] => ([], none)
  | b :: rest =>
    if b = d then ([], some rest)
    else
      ((b :: (splitFirst d rest).1), (splitFirst d rest).2)

/-- One query pair (`piece.splitn(2, '=')`, missing value is empty). -/
def parsePair1 (p : List Nat) : String × String :=
  match splitFirst 61 p with
  | (k, some v) => (decodeComp k, decodeComp v)
  | (k, none) => (decodeComp k, "")

/-- `form_urlencoded::parse`: split the raw query on `&`, drop empty
pieces, decode each piece as a pair. -/
def parsePairs (q : List Nat) : List (String × String) :=
  ((splitSep 38 q).filter (fun p => p ≠ [])).map parsePair1

/-- `Serializer::append_pair`'s output for one pair: encoded key, `=`,
encoded value. -/
def serializePair (k v : String) : List Nat :=
  serBytes (strBytes k) ++ 61 :: serBytes (strBytes v)

/-- A whole serialized pair list, `&`-separated. -/
def serializePairs : List (String × String) → List Nat
  | [] => []
  | [kv] => serializePair kv.1 kv.2
  | kv :: rest => serializePair kv.1 kv.2 ++ 38 :: serializePairs rest

/-! ### The `url::Url` model

A parsed URL is kept as the byte span before the first `?` or `#`
(scheme, authority and path, verbatim), the raw query and the raw
fragment.  Parsing requires an `alpha (alnum | + | - | .)* :` scheme and
otherwise accepts the string; WHATWG host/path normalization and
scheme-specific validation are not modelled (no claim touches them). -/

structure PUrl where
  stem : List Nat
  query : Option (List Nat)
  frag : Option (List Nat)
deriving DecidableEq

/-- ASCII letter byte. -/
def isAlphaByte (b : Nat) : Bool := (65 ≤ b ∧ b ≤ 90) ∨ (97 ≤ b ∧ b ≤ 122)

/-- Byte allowed in a scheme after the first letter. -/
def isSchemeByte (b : Nat) : Bool :=
  isAlphaByte b ∨ (48 ≤ b ∧ b ≤ 57) ∨ b = 43 ∨ b = 45 ∨ b = 46

/-- The stem starts with a valid `scheme:`. -/
def schemeOk (stem : List Nat) : Bool :=
  match splitFirst 58 stem with
  | (sch, some _) =>
    sch ≠ [] ∧ isAlphaByte (sch.headD 0) ∧ sch.all isSchemeByte
  | (_, none) => false

/-- `Url::parse` on bytes: fragment at the first `#`, query at the first
`?` before it, scheme required. -/
def urlParseBytes (bs : List Nat) : Option PUrl :=
  if schemeOk (splitFirst 63 (splitFirst 35 bs).1).1 then
    some ⟨(splitFirst 63 (splitFirst 35 bs).1).1,
          (splitFirst 63 (splitFirst 35 bs).1).2,
          (splitFirst 35 bs).2⟩
  else none

/-- `Url::parse` on a string. -/
def urlParse (s : String) : Option PUrl := urlParseBytes (strBytes s)

/-- `Url::to_string`, at the byte level. -/
def urlToStringBytes (u : PUrl) : List Nat :=
  u.stem ++ (match u.query with | none => [] | some q => 63 :: q)
    ++ (match u.frag with | none => [] | some f => 35 :: f)

/-- `Url::to_string`. -/
def urlToString (u : PUrl) : String :=
  String.mk (utf8DecodeLossy (urlToStringBytes u))

/-- `Url::query_pairs`: the decoded pairs of the raw query (empty when
there is no query). -/
def PUrl.pairs (u : PUrl) : List (String × String) :=
  parsePairs (u.query.getD [])

/-- `query_pairs_mut().append_pair(k, v)`: the serialized pair is appended
to the raw query, `&`-separated when the existing query is nonempty. -/
def PUrl.appendPair (u : PUrl) (k v : String) : PUrl :=
  { u with query := some (match u.query with
      | none => serializePair k v
      | some q => if q = [] then serializePair k v else q ++ 38 :: serializePair k v) }

/-- `ServerFnUrlError` (`error.rs:261-265`): a call path together with the
error it reports. -/
structure ServerFnUrlError (CustErr : Type) where
  path : String
  error : CustErr

/-- `ServerFnUrlError::to_url` (`error.rs:288-300`), parameterized by the
custom error type's `ServerFnErrorSerde::ser` (`none` models a `ser` that
returns `Err`): parse the base, then append `__path` and
`__err = ser(error).unwrap_or_default()`. -/
def ServerFnUrlError.to_url {CustErr : Type} (serF : CustErr → Option String)
    (self : ServerFnUrlError CustErr) (base : String) : Option PUrl :=
  (urlParse base).map (fun u =>
    (u.appendPair "__path" self.path).appendPair "__err"
      ((serF self.error).getD ""))

/-- `ServerFnUrlError::strip_error_info` (`error.rs:306-325`): parse the
string as a URL (no-op when parsing fails), collect the decoded query
pairs, clear the query, re-append every pair whose key is neither `__path`
nor `__err`, and write the URL back to the string. -/
def ServerFnUrlError.strip_error_info (path : String) : String :=
  match urlParse path with
  | none => path
  | some u =>
    urlToString { u with query := some (serializePairs
        (u.pairs.filter (fun kv => kv.1 ≠ "__path" ∧ kv.1 ≠ "__err"))) }

/-- The decoded query pairs of a URL string, when it parses. -/
def queryPairsOfString (s : String) : Option (List (String × String)) :=
  (urlParse s).map PUrl.pairs

/-- The `Display` rendering of a toy custom error type (satisfying the
Custom Error Contract shape) whose `ser` fails; used to state what the
spec's claimed `__err` fallback would produce. -/
def unitErrDisplay : Unit → String := fun _ => "boom"

/-- A byte list is well-formed UTF-8: a concatenation of encoded scalar
values. -/
inductive ValidUtf8 : List Nat → Prop where
  | nil : ValidUtf8 []
  | cons (c : Char) (rest : List Nat) (h : ValidUtf8 rest) :
      ValidUtf8 (utf8EncodeChar c ++ rest)

/-- The invariants `urlParseBytes` guarantees about its result, exactly
what is needed for `urlToStringBytes` to parse back to the same `PUrl`. -/
structure WfUrl (u : PUrl) : Prop where
  no35stem : 35 ∉ u.stem
  no63stem : 63 ∉ u.stem
  no35query : ∀ q, u.query = some q → 35 ∉ q
  scheme : schemeOk u.stem = true

/-! ## Helper lemmas -/

lemma char_valid_nat (c : Char) :
    c.toNat < 55296 ∨ (57344 ≤ c.toNat ∧ c.toNat < 1114112) := c.valid

lemma toNat_ofNat_of_valid {n : Nat} (h : Nat.isValidChar n) :
    (Char.ofNat n).toNat = n := by
  simp [Char.ofNat, h, Char.ofNatAux, Char.toNat, UInt32.toNat,
    BitVec.toNat_ofNatLt]

lemma utf8DecodeOne_length {b : Nat} {rest : List Nat} {n : Nat}
    {rest2 : List Nat} (h : utf8DecodeOne b rest = some (n, rest2)) :
    rest2.length ≤ rest.length := by
  unfold utf8DecodeOne at h
  split at h
  · simp only [Option.some.injEq, Prod.mk.injEq] at h
    rw [← h.2]
  · split at h
    · split at h
      · split at h
        · simp only [Option.some.injEq, Prod.mk.injEq] at h
          rw [← h.2]; simp
        · cases h
      · cases h
    · split at h
      · split at h
        · split at h
          · simp only [Option.some.injEq, Prod.mk.injEq] at h
            rw [← h.2]; simp; omega
          · cases h
        · cases h
      · split at h
        · split at h
          · split at h
            · simp only [Option.some.injEq, Prod.mk.injEq] at h
              rw [← h.2]; simp; omega
            · cases h
          · cases h
        · cases h

lemma utf8DecodeLossyAux_congr :
    ∀ {fuel1 fuel2 : Nat} {l : List Nat}, l.length ≤ fuel1 →
      l.length ≤ fuel2 → utf8DecodeLossyAux fuel1 l = utf8DecodeLossyAux fuel2 l := by
  intro fuel1
  induction fuel1 with
  | zero =>
    intro fuel2 l h1 h2
    have : l = [] := List.length_eq_zero.mp (by omega)
    subst this
    cases fuel2 <;> rfl
  | succ f1 ih =>
    intro fuel2 l h1 h2
    cases l with
    | nil => cases fuel2 <;> rfl
    | cons b rest =>
      cases fuel2 with
      | zero => simp at h2
      | succ f2 =>
        show (match utf8DecodeOne b rest with
            | some p => Char.ofNat p.1 :: utf8DecodeLossyAux f1 p.2
            | none => replacementChar :: utf8DecodeLossyAux f1 rest) =
          (match utf8DecodeOne b rest with
            | some p => Char.ofNat p.1 :: utf8DecodeLossyAux f2 p.2
            | none => replacementChar :: utf8DecodeLossyAux f2 rest)
        cases hd : utf8DecodeOne b rest with
        | some p =>
          have hlen : p.2.length ≤ rest.length := utf8DecodeOne_length hd
          simp only [List.length_cons] at h1 h2
          dsimp only
          rw [ih (show p.2.length ≤ f1 by omega) (show p.2.length ≤ f2 by omega)]
        | none =>
          simp only [List.length_cons] at h1 h2
          dsimp only
          rw [ih (show rest.length ≤ f1 by omega) (show rest.length ≤ f2 by omega)]

lemma utf8DecodeLossy_nil : utf8DecodeLossy [] = [] := rfl

lemma utf8DecodeLossy_cons_some {b n : Nat} {rest rest2 : List Nat}
    (h : utf8DecodeOne b rest = some (n, rest2)) :
    utf8DecodeLossy (b :: rest) = Char.ofNat n :: utf8DecodeLossy rest2 := by
  show utf8DecodeLossyAux (rest.length + 1) (b :: rest) = _
  show (match utf8DecodeOne b rest with
      | some p => Char.ofNat p.1 :: utf8DecodeLossyAux rest.length p.2
      | none => replacementChar :: utf8DecodeLossyAux rest.length rest) = _
  rw [h]
  have hlen : rest2.length ≤ rest.length := utf8DecodeOne_length h
  show Char.ofNat n :: utf8DecodeLossyAux rest.length rest2 = _
  rw [utf8DecodeLossyAux_congr hlen (Nat.le_refl _)]
  rfl

/-- `utf8DecodeOne` applied to the encoding of a scalar recovers exactly
that scalar, whatever follows. -/
lemma utf8DecodeOne_enc (c : Char) (rest : List Nat) :
    ∃ b tail, utf8EncodeChar c = b :: tail
      ∧ utf8DecodeOne b (tail ++ rest) = some (c.toNat, rest) := by
  have hval := char_valid_nat c
  by_cases h1 : c.toNat < 128
  · refine ⟨c.toNat, [], by unfold utf8EncodeChar; rw [if_pos h1], ?_⟩
    unfold utf8DecodeOne
    rw [if_pos h1, List.nil_append]
  · by_cases h2 : c.toNat < 2048
    · refine ⟨192 + c.toNat / 64, [128 + c.toNat % 64],
        by unfold utf8EncodeChar; rw [if_neg h1, if_pos h2], ?_⟩
      unfold utf8DecodeOne
      rw [if_neg (by omega),
        if_pos (by omega : 194 ≤ 192 + c.toNat / 64 ∧ 192 + c.toNat / 64 < 224)]
      dsimp only [List.cons_append, List.nil_append]
      rw [if_pos (by simp only [isCont, decide_eq_true_eq]; omega)]
      simp only [Option.some.injEq, Prod.mk.injEq]
      exact ⟨by omega, trivial⟩
    · by_cases h3 : c.toNat < 65536
      · refine ⟨224 + c.toNat / 4096,
          [128 + c.toNat / 64 % 64, 128 + c.toNat % 64],
          by unfold utf8EncodeChar; rw [if_neg h1, if_neg h2, if_pos h3], ?_⟩
        unfold utf8DecodeOne
        rw [if_neg (by omega), if_neg (by omega),
          if_pos (by omega :
            224 ≤ 224 + c.toNat / 4096 ∧ 224 + c.toNat / 4096 < 240)]
        dsimp only [List.cons_append, List.nil_append]
        rw [if_pos ?guard]
        case guard =>
          refine ⟨by simp only [isCont, decide_eq_true_eq]; omega,
            by simp only [isCont, decide_eq_true_eq]; omega,
            by intro he; omega, ?_⟩
          intro he
          rcases hval with hlt | ⟨hge, _⟩ <;> omega
        simp only [Option.some.injEq, Prod.mk.injEq]
        exact ⟨by omega, trivial⟩
      · have h4 : c.toNat < 1114112 := by
          rcases hval with hlt | ⟨_, hlt⟩ <;> omega
        refine ⟨240 + c.toNat / 262144,
          [128 + c.toNat / 4096 % 64, 128 + c.toNat / 64 % 64,
           128 + c.toNat % 64],
          by unfold utf8EncodeChar; rw [if_neg h1, if_neg h2, if_neg h3], ?_⟩
        unfold utf8DecodeOne
        rw [if_neg (by omega), if_neg (by omega), if_neg (by omega),
          if_pos (by omega :
            240 ≤ 240 + c.toNat / 262144 ∧ 240 + c.toNat / 262144 < 245)]
        dsimp only [List.cons_append, List.nil_append]
        rw [if_pos ?guard4]
        case guard4 =>
          exact ⟨by simp only [isCont, decide_eq_true_eq]; omega,
            by simp only [isCont, decide_eq_true_eq]; omega,
            by simp only [isCont, decide_eq_true_eq]; omega,
            by intro he; omega, by intro he; omega⟩
        simp only [Option.some.injEq, Prod.mk.injEq]
        exact ⟨by omega, trivial⟩

/-- The central UTF-8 fact: lossy decoding undoes encoding, character by
character, whatever follows. -/
lemma utf8DecodeLossy_enc (c : Char) (rest : List Nat) :
    utf8DecodeLossy (utf8EncodeChar c ++ rest) = c :: utf8DecodeLossy rest := by
  obtain ⟨b, tail, henc, hdec⟩ := utf8DecodeOne_enc c rest
  rw [henc, List.cons_append, utf8DecodeLossy_cons_some hdec, Char.ofNat_toNat]

lemma utf8Bytes_cons (c : Char) (l : List Char) :
    utf8Bytes (c :: l) = utf8EncodeChar c ++ utf8Bytes l := by
  simp [utf8Bytes]

lemma utf8Bytes_decode (l : List Char) : utf8DecodeLossy (utf8Bytes l) = l := by
  induction l with
  | nil => exact utf8DecodeLossy_nil
  | cons c rest ih => rw [utf8Bytes_cons, utf8DecodeLossy_enc, ih]

lemma strBytes_decode (s : String) : utf8DecodeLossy (strBytes s) = s.data :=
  utf8Bytes_decode s.data

lemma utf8EncodeChar_lt_256 (c : Char) : ∀ b ∈ utf8EncodeChar c, b < 256 := by
  have hval := char_valid_nat c
  have h4 : c.toNat < 1114112 := by rcases hval with h | ⟨_, h⟩ <;> omega
  intro b hb
  unfold utf8EncodeChar at hb
  split at hb
  · simp at hb; omega
  · split at hb
    · simp at hb; rcases hb with h | h <;> omega
    · split at hb
      · simp at hb; rcases hb with h | h | h <;> omega
      · simp at hb; rcases hb with h | h | h | h <;> omega

lemma utf8EncodeChar_ge_128 (c : Char) (h : 128 ≤ c.toNat) :
    ∀ b ∈ utf8EncodeChar c, 128 ≤ b := by
  intro b hb
  unfold utf8EncodeChar at hb
  split at hb
  · omega
  · split at hb
    · simp at hb; rcases hb with h | h <;> omega
    · split at hb
      · simp at hb; rcases hb with h | h | h <;> omega
      · simp at hb; rcases hb with h | h | h | h <;> omega

lemma utf8Bytes_lt_256 (l : List Char) : ∀ b ∈ utf8Bytes l, b < 256 := by
  intro b hb
  unfold utf8Bytes at hb
  simp only [List.mem_flatten, List.mem_map] at hb
  obtain ⟨bs, ⟨c, _, hc⟩, hmem⟩ := hb
  exact utf8EncodeChar_lt_256 c b (hc ▸ hmem)

lemma validUtf8_append {a b : List Nat} (ha : ValidUtf8 a) (hb : ValidUtf8 b) :
    ValidUtf8 (a ++ b) := by
  induction ha with
  | nil => exact hb
  | cons c rest _ ih => rw [List.append_assoc]; exact ValidUtf8.cons c _ ih

lemma validUtf8_utf8Bytes (l : List Char) : ValidUtf8 (utf8Bytes l) := by
  induction l with
  | nil => exact ValidUtf8.nil
  | cons c rest ih => rw [utf8Bytes_cons]; exact ValidUtf8.cons c _ ih

lemma utf8EncodeChar_ascii {b : Nat} (h : b < 128) :
    utf8EncodeChar (Char.ofNat b) = [b] := by
  have hv : Nat.isValidChar b := Or.inl (by omega)
  have ht : (Char.ofNat b).toNat = b := toNat_ofNat_of_valid hv
  simp [utf8EncodeChar, ht, h]

lemma validUtf8_ascii {l : List Nat} (h : ∀ b ∈ l, b < 128) : ValidUtf8 l := by
  induction l with
  | nil => exact ValidUtf8.nil
  | cons b rest ih =>
    have hb : b < 128 := h b (List.mem_cons_self b rest)
    have : ValidUtf8 (utf8EncodeChar (Char.ofNat b) ++ rest) :=
      ValidUtf8.cons _ _ (ih (fun x hx => h x (List.mem_cons_of_mem b hx)))
    rwa [utf8EncodeChar_ascii hb] at this

lemma utf8Bytes_decode_id {bs : List Nat} (h : ValidUtf8 bs) :
    utf8Bytes (utf8DecodeLossy bs) = bs := by
  induction h with
  | nil => rw [utf8DecodeLossy_nil]; rfl
  | cons c rest _ ih =>
    rw [utf8DecodeLossy_enc, utf8Bytes_cons, ih]

lemma hexVal_hexDigitUpper : ∀ n < 16, hexVal? (hexDigitUpper n) = some n := by
  decide

lemma hexDigitUpper_range {m : Nat} (h : m < 16) :
    48 ≤ hexDigitUpper m ∧ hexDigitUpper m ≤ 70 ∧
      (hexDigitUpper m ≤ 57 ∨ 65 ≤ hexDigitUpper m) := by
  unfold hexDigitUpper
  split <;> omega

lemma percentDecodeOne_length (b : Nat) (rest : List Nat) :
    (percentDecodeOne b rest).2.length ≤ rest.length := by
  unfold percentDecodeOne
  split
  · simp
  · split
    · split
      · split <;> simp <;> omega
      · simp
    · simp

lemma percentPlusDecodeAux_congr :
    ∀ {fuel1 fuel2 : Nat} {l : List Nat}, l.length ≤ fuel1 →
      l.length ≤ fuel2 →
      percentPlusDecodeAux fuel1 l = percentPlusDecodeAux fuel2 l := by
  intro fuel1
  induction fuel1 with
  | zero =>
    intro fuel2 l h1 h2
    have : l = [] := List.length_eq_zero.mp (by omega)
    subst this
    cases fuel2 <;> rfl
  | succ f1 ih =>
    intro fuel2 l h1 h2
    cases l with
    | nil => cases fuel2 <;> rfl
    | cons b rest =>
      cases fuel2 with
      | zero => simp at h2
      | succ f2 =>
        show (percentDecodeOne b rest).1 ::
            percentPlusDecodeAux f1 (percentDecodeOne b rest).2 =
          (percentDecodeOne b rest).1 ::
            percentPlusDecodeAux f2 (percentDecodeOne b rest).2
        have hlen := percentDecodeOne_length b rest
        simp only [List.length_cons] at h1 h2
        rw [ih (show (percentDecodeOne b rest).2.length ≤ f1 by omega)
          (show (percentDecodeOne b rest).2.length ≤ f2 by omega)]

lemma percentPlusDecode_nil : percentPlusDecode [] = [] := rfl

lemma percentPlusDecode_cons (b : Nat) (rest : List Nat) :
    percentPlusDecode (b :: rest) =
      (percentDecodeOne b rest).1 ::
        percentPlusDecode (percentDecodeOne b rest).2 := by
  show (percentDecodeOne b rest).1 ::
      percentPlusDecodeAux rest.length (percentDecodeOne b rest).2 = _
  rw [percentPlusDecodeAux_congr (percentDecodeOne_length b rest)
    (Nat.le_refl _)]
  rfl

lemma unreservedByte_facts {b : Nat} (h : unreservedByte b = true) :
    b ≠ 43 ∧ b ≠ 37 ∧ b ≠ 32 ∧ b < 128 ∧ b ≠ 35 ∧ b ≠ 38 ∧ b ≠ 61 ∧ b ≠ 63 := by
  simp only [unreservedByte, decide_eq_true_eq] at h
  omega

lemma percentPlusDecode_encByte {b : Nat} (hb : b < 256) (rest : List Nat) :
    percentPlusDecode (encByte b ++ rest) = b :: percentPlusDecode rest := by
  by_cases h32 : b = 32
  · subst h32
    have henc : encByte 32 = [43] := rfl
    rw [henc, List.cons_append, List.nil_append, percentPlusDecode_cons]
    have hd : percentDecodeOne 43 rest = (32, rest) := by
      unfold percentDecodeOne
      rw [if_pos rfl]
    rw [hd]
  · by_cases hun : unreservedByte b = true
    · have henc : encByte b = [b] := by
        unfold encByte; rw [if_neg h32, if_pos hun]
      rw [henc, List.cons_append, List.nil_append, percentPlusDecode_cons]
      obtain ⟨h43, h37, -⟩ := unreservedByte_facts hun
      have hd : percentDecodeOne b rest = (b, rest) := by
        unfold percentDecodeOne
        rw [if_neg h43, if_neg h37]
      rw [hd]
    · have henc : encByte b =
          [37, hexDigitUpper (b / 16), hexDigitUpper (b % 16)] := by
        unfold encByte; rw [if_neg h32, if_neg hun]
      rw [henc]
      simp only [List.cons_append, List.nil_append]
      rw [percentPlusDecode_cons]
      have hd : percentDecodeOne 37
          (hexDigitUpper (b / 16) :: hexDigitUpper (b % 16) :: rest) =
          (b, rest) := by
        unfold percentDecodeOne
        rw [if_neg (by omega), if_pos rfl]
        have hh : hexVal? (hexDigitUpper (b / 16)) = some (b / 16) :=
          hexVal_hexDigitUpper _ (by omega)
        have hl : hexVal? (hexDigitUpper (b % 16)) = some (b % 16) :=
          hexVal_hexDigitUpper _ (by omega)
        simp only [hh, hl, Prod.mk.injEq]
        exact ⟨by omega, trivial⟩
      rw [hd]

lemma serBytes_cons (b : Nat) (tail : List Nat) :
    serBytes (b :: tail) = encByte b ++ serBytes tail := by
  simp [serBytes]

lemma percentPlusDecode_serBytes {bs : List Nat} (hb : ∀ b ∈ bs, b < 256)
    (rest : List Nat) :
    percentPlusDecode (serBytes bs ++ rest) = bs ++ percentPlusDecode rest := by
  induction bs with
  | nil => simp [serBytes]
  | cons b tail ih =>
    rw [serBytes_cons, List.append_assoc,
      percentPlusDecode_encByte (hb b (List.mem_cons_self b tail)),
      ih (fun x hx => hb x (List.mem_cons_of_mem b hx))]
    rfl

lemma percentPlusDecode_serBytes_id {bs : List Nat} (hb : ∀ b ∈ bs, b < 256) :
    percentPlusDecode (serBytes bs) = bs := by
  have h := percentPlusDecode_serBytes hb []
  rwa [List.append_nil, percentPlusDecode_nil, List.append_nil] at h

lemma encByte_mem {x b : Nat} (hb : b < 256) (hx : x ∈ encByte b) :
    x < 128 ∧ x ≠ 35 ∧ x ≠ 38 ∧ x ≠ 61 ∧ x ≠ 63 := by
  unfold encByte at hx
  split at hx
  · simp at hx; omega
  · split at hx
    · rename_i h32 hun
      simp at hx
      subst hx
      obtain ⟨-, -, -, h⟩ := unreservedByte_facts hun
      exact ⟨h.1, h.2.1, h.2.2.1, h.2.2.2.1, h.2.2.2.2⟩
    · simp at hx
      obtain ⟨hhi1, hhi2, hhi3⟩ := hexDigitUpper_range (show b / 16 < 16 by omega)
      obtain ⟨hlo1, hlo2, hlo3⟩ := hexDigitUpper_range (show b % 16 < 16 by omega)
      rcases hx with h | h | h <;> omega

lemma serBytes_mem {x : Nat} {bs : List Nat} (hb : ∀ b ∈ bs, b < 256)
    (hx : x ∈ serBytes bs) :
    x < 128 ∧ x ≠ 35 ∧ x ≠ 38 ∧ x ≠ 61 ∧ x ≠ 63 := by
  unfold serBytes at hx
  simp only [List.mem_flatten, List.mem_map] at hx
  obtain ⟨l, ⟨b, hbmem, hbl⟩, hmem⟩ := hx
  exact encByte_mem (hb b hbmem) (hbl ▸ hmem)

lemma splitFirst_prepend {d : Nat} {a : List Nat} (l : List Nat) (h : d ∉ a) :
    splitFirst d (a ++ l) =
      (a ++ (splitFirst d l).1, (splitFirst d l).2) := by
  induction a with
  | nil => simp
  | cons x a' ih =>
    have hx : x ≠ d := fun hc => h (hc ▸ List.mem_cons_self x a')
    have ha' : d ∉ a' := fun hm => h (List.mem_cons_of_mem x hm)
    simp only [List.cons_append, splitFirst, if_neg hx]
    rw [List.append_eq, ih ha']

lemma splitFirst_not_mem {d : Nat} {l : List Nat} (h : d ∉ l) :
    splitFirst d l = (l, none) := by
  have : splitFirst d (l ++ []) = (l ++ (splitFirst d []).1, (splitFirst d []).2) :=
    splitFirst_prepend [] h
  simpa [splitFirst] using this

lemma splitFirst_found {d : Nat} {a : List Nat} (b : List Nat) (h : d ∉ a) :
    splitFirst d (a ++ d :: b) = (a, some b) := by
  have : splitFirst d (a ++ d :: b) =
      (a ++ (splitFirst d (d :: b)).1, (splitFirst d (d :: b)).2) :=
    splitFirst_prepend (d :: b) h
  rw [this]
  simp [splitFirst]

lemma splitFirst_fst_subset {d x : Nat} {l : List Nat}
    (h : x ∈ (splitFirst d l).1) : x ∈ l := by
  induction l with
  | nil => simp [splitFirst] at h
  | cons b rest ih =>
    by_cases hb : b = d
    · simp [splitFirst, hb] at h
    · simp only [splitFirst, if_neg hb, List.mem_cons] at h
      rcases h with h | h
      · exact h ▸ List.mem_cons_self b rest
      · exact List.mem_cons_of_mem b (ih h)

lemma splitFirst_snd_subset {d x : Nat} {l r : List Nat}
    (h : (splitFirst d l).2 = some r) (hx : x ∈ r) : x ∈ l := by
  induction l with
  | nil => simp [splitFirst] at h
  | cons b rest ih =>
    by_cases hb : b = d
    · simp only [splitFirst, if_pos hb] at h
      cases h
      exact List.mem_cons_of_mem b hx
    · simp only [splitFirst, if_neg hb] at h
      exact List.mem_cons_of_mem b (ih h)

lemma splitFirst_fst_not_mem (d : Nat) (l : List Nat) :
    d ∉ (splitFirst d l).1 := by
  induction l with
  | nil => simp [splitFirst]
  | cons b rest ih =>
    by_cases hb : b = d
    · simp [splitFirst, hb]
    · simp only [splitFirst, if_neg hb, List.mem_cons]
      push_neg
      exact ⟨fun hc => hb hc.symm, ih⟩

lemma splitSep_ne_nil (d : Nat) (l : List Nat) : splitSep d l ≠ [] := by
  induction l with
  | nil => simp [splitSep]
  | cons b rest ih =>
    by_cases hb : b = d
    · simp [splitSep, hb]
    · simp only [splitSep, if_neg hb]
      cases hs : splitSep d rest with
      | nil => simp
      | cons x xs => simp

lemma splitSep_not_mem {d : Nat} {l : List Nat} (h : d ∉ l) :
    splitSep d l = [l] := by
  induction l with
  | nil => rfl
  | cons b rest ih =>
    have hb : b ≠ d := fun hc => h (hc ▸ List.mem_cons_self b rest)
    have hrest : d ∉ rest := fun hm => h (List.mem_cons_of_mem b hm)
    simp only [splitSep, if_neg hb, ih hrest]

lemma splitSep_append (d : Nat) (a b : List Nat) :
    splitSep d (a ++ d :: b) = splitSep d a ++ splitSep d b := by
  induction a with
  | nil => simp [splitSep]
  | cons x a' ih =>
    by_cases hx : x = d
    · simp only [List.cons_append, splitSep, if_pos hx]
      rw [List.append_eq, ih]
    · simp only [List.cons_append, splitSep, if_neg hx]
      rw [List.append_eq, ih]
      cases hs : splitSep d a' with
      | nil => exact absurd hs (splitSep_ne_nil d a')
      | cons y ys => simp [hs]

lemma string_mk_data (s : String) : String.mk s.data = s := by
  cases s; rfl

lemma splitOnce_of_not_mem (t p : List Char) (h : '|' ∉ t) :
    splitOnce '|' (t ++ '|' :: p) = some (t, p) := by
  induction t with
  | nil => simp [splitOnce]
  | cons c rest ih =>
    have hc : c ≠ '|' := by
      intro hc; exact h (hc ▸ List.mem_cons_self c rest)
    have hrest : '|' ∉ rest := fun hm => h (List.mem_cons_of_mem c hm)
    simp [splitOnce, hc, ih hrest]

lemma parsePairs_nil : parsePairs [] = [] := by
  simp [parsePairs, splitSep]

lemma parsePairs_append (a b : List Nat) :
    parsePairs (a ++ 38 :: b) = parsePairs a ++ parsePairs b := by
  unfold parsePairs
  rw [splitSep_append, List.filter_append, List.map_append]

lemma strBytes_lt_256 (s : String) : ∀ b ∈ strBytes s, b < 256 :=
  utf8Bytes_lt_256 s.data

lemma decodeComp_serBytes_strBytes (s : String) :
    decodeComp (serBytes (strBytes s)) = s := by
  unfold decodeComp
  rw [percentPlusDecode_serBytes_id (strBytes_lt_256 s), strBytes_decode,
    string_mk_data]

lemma serializePair_mem {x : Nat} {k v : String}
    (hx : x ∈ serializePair k v) : x < 128 ∧ x ≠ 35 ∧ x ≠ 38 ∧ x ≠ 63 := by
  unfold serializePair at hx
  simp only [List.mem_append, List.mem_cons] at hx
  rcases hx with h | h | h
  · obtain ⟨h1, h2, h3, -, h5⟩ := serBytes_mem (strBytes_lt_256 k) h
    exact ⟨h1, h2, h3, h5⟩
  · subst h; refine ⟨by omega, by omega, by omega, by omega⟩
  · obtain ⟨h1, h2, h3, -, h5⟩ := serBytes_mem (strBytes_lt_256 v) h
    exact ⟨h1, h2, h3, h5⟩

lemma serializePair_ne_nil (k v : String) : serializePair k v ≠ [] := by
  unfold serializePair
  simp

lemma parsePair1_serializePair (k v : String) :
    parsePair1 (serializePair k v) = (k, v) := by
  unfold parsePair1
  have h61 : (61 : Nat) ∉ serBytes (strBytes k) := fun hm =>
    (serBytes_mem (strBytes_lt_256 k) hm).2.2.2.1 rfl
  rw [show serializePair k v =
      serBytes (strBytes k) ++ 61 :: serBytes (strBytes v) from rfl,
    splitFirst_found _ h61]
  show (decodeComp (serBytes (strBytes k)),
    decodeComp (serBytes (strBytes v))) = (k, v)
  rw [decodeComp_serBytes_strBytes, decodeComp_serBytes_strBytes]

lemma parsePairs_serializePair (k v : String) :
    parsePairs (serializePair k v) = [(k, v)] := by
  unfold parsePairs
  have h38 : (38 : Nat) ∉ serializePair k v := fun hm =>
    (serializePair_mem hm).2.2.1 rfl
  rw [splitSep_not_mem h38]
  simp [serializePair_ne_nil, parsePair1_serializePair]

lemma parsePairs_serializePairs (ps : List (String × String)) :
    parsePairs (serializePairs ps) = ps := by
  induction ps with
  | nil => exact parsePairs_nil
  | cons kv rest ih =>
    cases rest with
    | nil =>
      rw [show serializePairs [kv] = serializePair kv.1 kv.2 from rfl,
        parsePairs_serializePair]
    | cons kv2 rest2 =>
      rw [show serializePairs (kv :: kv2 :: rest2) =
          serializePair kv.1 kv.2 ++ 38 :: serializePairs (kv2 :: rest2)
          from rfl,
        parsePairs_append, parsePairs_serializePair, ih]
      rfl

lemma serializePairs_mem {x : Nat} {ps : List (String × String)}
    (hx : x ∈ serializePairs ps) : x < 128 ∧ x ≠ 35 ∧ x ≠ 63 := by
  induction ps with
  | nil => simp [serializePairs] at hx
  | cons kv rest ih =>
    cases rest with
    | nil =>
      rw [show serializePairs [kv] = serializePair kv.1 kv.2 from rfl] at hx
      obtain ⟨h1, h2, -, h4⟩ := serializePair_mem hx
      exact ⟨h1, h2, h4⟩
    | cons kv2 rest2 =>
      rw [show serializePairs (kv :: kv2 :: rest2) =
          serializePair kv.1 kv.2 ++ 38 :: serializePairs (kv2 :: rest2)
          from rfl] at hx
      simp only [List.mem_append, List.mem_cons] at hx
      rcases hx with h | h | h
      · obtain ⟨h1, h2, -, h4⟩ := serializePair_mem h
        exact ⟨h1, h2, h4⟩
      · subst h; exact ⟨by omega, by omega, by omega⟩
      · exact ih h

lemma pairs_appendPair (u : PUrl) (k v : String) :
    (u.appendPair k v).pairs = u.pairs ++ [(k, v)] := by
  unfold PUrl.appendPair PUrl.pairs
  cases hq : u.query with
  | none =>
    simp only [Option.getD_some, Option.getD_none]
    rw [parsePairs_nil, parsePairs_serializePair]
    rfl
  | some q =>
    by_cases hq0 : q = []
    · subst hq0
      simp only [Option.getD_some, if_pos rfl, if_true]
      rw [parsePairs_nil, parsePairs_serializePair]
      exact (List.nil_append _).symm
    · simp only [Option.getD_some, if_neg hq0]
      rw [parsePairs_append, parsePairs_serializePair]

lemma splitFirst_valid {d : Nat} (hd : d < 128) {l : List Nat}
    (h : ValidUtf8 l) :
    ValidUtf8 (splitFirst d l).1
      ∧ ∀ r, (splitFirst d l).2 = some r → ValidUtf8 r := by
  induction h with
  | nil =>
    constructor
    · exact ValidUtf8.nil
    · intro r hr; simp [splitFirst] at hr
  | cons c rest hrest ih =>
    by_cases hc : c.toNat < 128
    · have henc : utf8EncodeChar c = [c.toNat] := by
        unfold utf8EncodeChar; rw [if_pos hc]
      rw [henc]
      by_cases hcd : c.toNat = d
      · simp only [List.cons_append, List.nil_append, splitFirst, if_pos hcd]
        exact ⟨ValidUtf8.nil, fun r hr => by cases hr; exact hrest⟩
      · simp only [List.cons_append, List.nil_append, splitFirst, if_neg hcd]
        constructor
        · have : ValidUtf8 (utf8EncodeChar c ++ (splitFirst d rest).1) :=
            ValidUtf8.cons c _ ih.1
          rwa [henc, List.cons_append, List.nil_append] at this
        · exact ih.2
    · have hnd : d ∉ utf8EncodeChar c := fun hm => by
        have := utf8EncodeChar_ge_128 c (by omega) d hm
        omega
      rw [splitFirst_prepend rest hnd]
      exact ⟨ValidUtf8.cons c _ ih.1, ih.2⟩

lemma parse_wf {bs : List Nat} {u : PUrl} (h : urlParseBytes bs = some u) :
    WfUrl u := by
  unfold urlParseBytes at h
  split at h
  · rename_i hscheme
    cases h
    refine ⟨?_, ?_, ?_, hscheme⟩
    · intro hm
      exact splitFirst_fst_not_mem 35 bs (splitFirst_fst_subset hm)
    · intro hm
      exact splitFirst_fst_not_mem 63 (splitFirst 35 bs).1 hm
    · intro q hq hm
      exact splitFirst_fst_not_mem 35 bs (splitFirst_snd_subset hq hm)
  · cases h

lemma parse_valid_components {s : String} {u : PUrl}
    (h : urlParse s = some u) :
    ValidUtf8 u.stem ∧ (∀ q, u.query = some q → ValidUtf8 q)
      ∧ (∀ f, u.frag = some f → ValidUtf8 f) := by
  unfold urlParse urlParseBytes at h
  split at h
  · cases h
    have hv : ValidUtf8 (strBytes s) := validUtf8_utf8Bytes s.data
    have h35 := splitFirst_valid (by omega : (35 : Nat) < 128) hv
    have h63 := splitFirst_valid (by omega : (63 : Nat) < 128) h35.1
    exact ⟨h63.1, fun q hq => h63.2 q hq, fun f hf => h35.2 f hf⟩
  · cases h

lemma wf_roundtrip {u : PUrl} (h : WfUrl u) :
    urlParseBytes (urlToStringBytes u) = some u := by
  obtain ⟨stem, query, frag⟩ := u
  obtain ⟨h35s, h63s, h35q, hsch⟩ := h
  simp only at h35s h63s h35q hsch
  have hq35 : ∀ q, query = some q →
      35 ∉ stem ++ 63 :: q := by
    intro q hq hm
    rcases List.mem_append.mp hm with hm | hm
    · exact h35s hm
    · simp only [List.mem_cons] at hm
      rcases hm with hm | hm
      · omega
      · exact h35q q hq hm
  cases query with
  | none =>
    cases frag with
    | none =>
      show urlParseBytes (stem ++ [] ++ []) = _
      rw [List.append_nil, List.append_nil]
      unfold urlParseBytes
      rw [splitFirst_not_mem h35s]
      simp only
      rw [splitFirst_not_mem h63s]
      simp only
      rw [if_pos hsch]
    | some f =>
      show urlParseBytes (stem ++ [] ++ 35 :: f) = _
      rw [List.append_nil]
      unfold urlParseBytes
      rw [splitFirst_found f h35s]
      simp only
      rw [splitFirst_not_mem h63s]
      simp only
      rw [if_pos hsch]
  | some q =>
    have h35sq : 35 ∉ stem ++ 63 :: q := hq35 q rfl
    cases frag with
    | none =>
      show urlParseBytes (stem ++ 63 :: q ++ []) = _
      rw [List.append_nil]
      unfold urlParseBytes
      rw [splitFirst_not_mem h35sq]
      simp only
      rw [splitFirst_found q h63s]
      simp only
      rw [if_pos hsch]
    | some f =>
      show urlParseBytes (stem ++ 63 :: q ++ 35 :: f) = _
      unfold urlParseBytes
      rw [splitFirst_found f h35sq]
      simp only
      rw [splitFirst_found q h63s]
      simp only
      rw [if_pos hsch]

lemma validUtf8_serializePair (k v : String) : ValidUtf8 (serializePair k v) :=
  validUtf8_ascii (fun _ hx => (serializePair_mem hx).1)

lemma validUtf8_serializePairs (ps : List (String × String)) :
    ValidUtf8 (serializePairs ps) :=
  validUtf8_ascii (fun _ hx => (serializePairs_mem hx).1)

lemma appendPair_stem (u : PUrl) (k v : String) :
    (u.appendPair k v).stem = u.stem := rfl

lemma appendPair_frag (u : PUrl) (k v : String) :
    (u.appendPair k v).frag = u.frag := rfl

lemma wf_appendPair {u : PUrl} (h : WfUrl u) (k v : String) :
    WfUrl (u.appendPair k v) := by
  obtain ⟨h35s, h63s, h35q, hsch⟩ := h
  refine ⟨h35s, h63s, ?_, hsch⟩
  intro q hq hm
  unfold PUrl.appendPair at hq
  simp only [Option.some.injEq] at hq
  subst hq
  cases hqu : u.query with
  | none =>
    rw [hqu] at hm
    dsimp only at hm
    exact (serializePair_mem hm).2.1 rfl
  | some q0 =>
    rw [hqu] at hm
    dsimp only at hm
    by_cases hq0 : q0 = []
    · rw [if_pos hq0] at hm
      exact (serializePair_mem hm).2.1 rfl
    · rw [if_neg hq0] at hm
      rcases List.mem_append.mp hm with hm | hm
      · exact h35q q0 hqu hm
      · simp only [List.mem_cons] at hm
        rcases hm with hm | hm
        · omega
        · exact (serializePair_mem hm).2.1 rfl

lemma query_valid_appendPair {u : PUrl}
    (h : ∀ q, u.query = some q → ValidUtf8 q) (k v : String) :
    ∀ q, (u.appendPair k v).query = some q → ValidUtf8 q := by
  intro q hq
  unfold PUrl.appendPair at hq
  simp only [Option.some.injEq] at hq
  subst hq
  cases hqu : u.query with
  | none => exact validUtf8_serializePair k v
  | some q0 =>
    dsimp only
    by_cases hq0 : q0 = []
    · rw [if_pos hq0]
      exact validUtf8_serializePair k v
    · rw [if_neg hq0]
      refine validUtf8_append (h q0 hqu) ?_
      have h38 : ValidUtf8 [38] := validUtf8_ascii (by intro b hb; simp at hb; omega)
      have := validUtf8_append h38 (validUtf8_serializePair k v)
      simpa using this

lemma validUtf8_urlToStringBytes {u : PUrl}
    (hs : ValidUtf8 u.stem) (hq : ∀ q, u.query = some q → ValidUtf8 q)
    (hf : ∀ f, u.frag = some f → ValidUtf8 f) :
    ValidUtf8 (urlToStringBytes u) := by
  unfold urlToStringBytes
  refine validUtf8_append (validUtf8_append hs ?_) ?_
  · cases hqu : u.query with
    | none => exact ValidUtf8.nil
    | some q =>
      have h63 : ValidUtf8 [63] :=
        validUtf8_ascii (by intro b hb; simp at hb; omega)
      have := validUtf8_append h63 (hq q hqu)
      simpa using this
  · cases hfu : u.frag with
    | none => exact ValidUtf8.nil
    | some f =>
      have h35 : ValidUtf8 [35] :=
        validUtf8_ascii (by intro b hb; simp at hb; omega)
      have := validUtf8_append h35 (hf f hfu)
      simpa using this

lemma strBytes_urlToString {u : PUrl} (h : ValidUtf8 (urlToStringBytes u)) :
    strBytes (urlToString u) = urlToStringBytes u := by
  unfold urlToString strBytes
  rw [show (String.mk (utf8DecodeLossy (urlToStringBytes u))).data =
      utf8DecodeLossy (urlToStringBytes u) from rfl]
  exact utf8Bytes_decode_id h

lemma urlParse_urlToString {u : PUrl} (hwf : WfUrl u)
    (hv : ValidUtf8 (urlToStringBytes u)) :
    urlParse (urlToString u) = some u := by
  unfold urlParse
  rw [strBytes_urlToString hv]
  exact wf_roundtrip hwf

/-! ## The claims -/

/-- C1: for every variant of `ServerFnErrorErr` and arbitrary payload text
(including payloads containing the `|` delimiter, since decoding splits at
the first `|` only), `ServerFnErrorSerde::de (ServerFnErrorSerde::ser e) = e`. -/
theorem de_ser_roundtrip (e : ServerFnErrorErr) :
    ServerFnErrorErr.de e.ser = e := by
  cases e <;> rfl

/-- C1 witness: the round-trip at a concrete error whose payload contains
the `|` delimiter. -/
theorem de_ser_roundtrip_witness :
    ServerFnErrorErr.de (ServerFnErrorErr.ser (.Request "a|b|c")) =
      .Request "a|b|c" :=
  de_ser_roundtrip (.Request "a|b|c")

/-- C2: `ServerFnErrorSerde::de` is total by construction, and on any input
that does not match a known `Tag|...` form it returns the `Deserialization`
variant whose payload is exactly `"Could not deserialize error "` followed
by the Rust-debug-quoted original input. -/
theorem de_fallback_on_unrecognized (s : String) (h : deRecognized s = false) :
    ServerFnErrorErr.de s =
      .Deserialization ("Could not deserialize error " ++ rustDebugQuote s) := by
  unfold ServerFnErrorErr.de
  unfold deRecognized at h
  cases hopt : (splitOnce '|' s.data).bind
      (fun p => tagLookup (String.mk p.1) (String.mk p.2)) with
  | none => rfl
  | some e => rw [hopt] at h; simp at h

/-- C2 witness: the fallback at five concrete malformed inputs — the empty
string, a string without `|`, a string with an unknown tag, a NUL (quoted
by Rust as `\0`), and the non-printable U+0080 (quoted by Rust as
`\u{80}` via its Unicode tables). -/
theorem de_fallback_witness :
    ServerFnErrorErr.de "" =
        .Deserialization "Could not deserialize error \"\""
      ∧ ServerFnErrorErr.de "no delimiter" =
        .Deserialization "Could not deserialize error \"no delimiter\""
      ∧ ServerFnErrorErr.de "Bogus|x" =
        .Deserialization "Could not deserialize error \"Bogus|x\""
      ∧ ServerFnErrorErr.de "\x00" =
        .Deserialization "Could not deserialize error \"\\0\""
      ∧ ServerFnErrorErr.de "\u0080" =
        .Deserialization "Could not deserialize error \"\\u\x7b80\x7d\"" :=
  ⟨(de_fallback_on_unrecognized "" (by decide)).trans (by decide),
   (de_fallback_on_unrecognized "no delimiter" (by decide)).trans (by decide),
   (de_fallback_on_unrecognized "Bogus|x" (by decide)).trans (by decide),
   (de_fallback_on_unrecognized "\x00" (by decide)).trans (by decide),
   (de_fallback_on_unrecognized "\u0080" (by decide)).trans (by decide)⟩

/-- C3 (code bug witness): the live `ServerFnErrorErr` enum has no
`ServerError` variant, so the wire tag `ServerError` is not recognized —
`de "ServerError|boom"` falls back to `Deserialization` instead of
producing the error the claim describes; for the variants that do exist,
`error_response` has the claimed shape (status 500, marker header equal to
the path, body `Tag|payload`). -/
theorem serverError_tag_not_recognized :
    ServerFnErrorErr.de "ServerError|boom" =
        .Deserialization "Could not deserialize error \"ServerError|boom\""
      ∧ errorResponseBuilt "/api/foo" (.Response "boom") =
        some { status := 500,
               headers := [("serverfnerror", "/api/foo")],
               body := "Response|boom" } := by
  exact ⟨by decide, by decide⟩

/-- C4 counterexample: the internal builder of `error_response` fails when
the call path is not a valid header value, so the source's `.unwrap()`
panics — `error_response` is not total in the call path. -/
theorem error_response_builder_fails_on_newline_path :
    errorResponseBuilt "\n" (.Request "x") = none := by decide

/-- C4 (amended): `error_response(path, error)` never fails or panics for
every error value, provided the call path is representable as a header
value; under that hypothesis the internal failure branch is unreachable. -/
theorem error_response_total_on_valid_path (path : String)
    (err : ServerFnErrorErr) (h : validHeaderValue path = true) :
    (errorResponseBuilt path err).isSome = true := by
  simp [errorResponseBuilt, h]

/-- C4 witness: the amended statement at a concrete path and error. -/
theorem error_response_total_witness :
    validHeaderValue "/api/foo" = true
      ∧ (errorResponseBuilt "/api/foo" (.Request "boom")).isSome = true :=
  ⟨by decide, error_response_total_on_valid_path "/api/foo" (.Request "boom")
      (by decide)⟩

/-- C8: if the target path is a valid header value, `redirect` sets the
`Location` header and the status to 302 Found; otherwise it leaves the
response entirely unchanged — status, headers and body. -/
theorem redirect_sets_or_noop (r : HttpResponse) (path : String) :
    (validHeaderValue path = true →
      redirect r path =
        { r with status := 302,
                 headers := insertHeader r.headers "location" path })
    ∧ (validHeaderValue path = false → redirect r path = r) := by
  constructor <;> intro h <;> simp [redirect, h]

/-- C8 witness: `redirect` on `"\n"` (an invalid header value) is a no-op,
and on a valid target it produces the 302 response. -/
theorem redirect_witness :
    redirect ⟨200, [("content-type", "text/plain")], "ok"⟩ "\n" =
        ⟨200, [("content-type", "text/plain")], "ok"⟩
      ∧ redirect ⟨200, [("content-type", "text/plain")], "ok"⟩ "/next" =
        ⟨302, [("content-type", "text/plain"), ("location", "/next")], "ok"⟩ :=
  ⟨(redirect_sets_or_noop ⟨200, [("content-type", "text/plain")], "ok"⟩
      "\n").2 (by decide),
   ((redirect_sets_or_noop ⟨200, [("content-type", "text/plain")], "ok"⟩
      "/next").1 (by decide)).trans (by decide)⟩

/-- C9 (code bug witness): for a value that is already `ServerFnErrorErr`
(so both capability sets hold), the macro's two-reference receiver resolves
to the `Display + Clone` impl, not to the `&&&&WrapError<ServerFnErrorErr>`
impl — the "already the target error type" branch is unreachable from the
macro, contradicting the comment on `error.rs:39`. -/
theorem via_error_dispatch_misses_specialized :
    resolveViaError serverFnErrorMacroReceiverDepth true true =
        some ViaErrorImpl.displayClone
      ∧ ViaErrorImpl.displayClone ≠ ViaErrorImpl.specialized := by
  exact ⟨by decide, by decide⟩

/-- C10: `try_into_stream` always returns `Ok` — the outer failure branch
permitted by its signature is unreachable — and every error delivered
inside the stream is of the `Response` kind. -/
theorem try_into_stream_always_ok (r : ReqwestResponse) :
    ∃ s, tryIntoStream r = .ok s
      ∧ ∀ x ∈ s, ∀ e, x = .error e →
          ∃ m, e = ServerFnErrorErr.Response m := by
  refine ⟨_, rfl, ?_⟩
  intro x hx e hxe
  simp only [List.mem_map] at hx
  obtain ⟨c, _, hc⟩ := hx
  cases c with
  | ok bs => rw [← hc] at hxe; cases hxe
  | error m => exact ⟨m, by rw [← hc] at hxe; cases hxe; rfl⟩

/-- C10 witness: the statement at a concrete response whose stream carries
one data chunk and one transport error. -/
theorem try_into_stream_witness :
    ∃ s, tryIntoStream ⟨[.ok [104, 105], .error "connection reset"]⟩ = .ok s
      ∧ ∀ x ∈ s, ∀ e, x = .error e →
          ∃ m, e = ServerFnErrorErr.Response m :=
  try_into_stream_always_ok ⟨[.ok [104, 105], .error "connection reset"]⟩

/-- C5 counterexample: when the custom error type's wire encoding fails,
`to_url` puts the empty string into `__err` (`unwrap_or_default`,
`error.rs:297`), not the error's own text rendering (`unitErrDisplay () =
"boom"`), contrary to the claimed fallback. -/
theorem to_url_fallback_counterexample :
    ((ServerFnUrlError.mk "p" ()).to_url (fun _ => none) "http://a/").map
        PUrl.pairs = some [("__path", "p"), ("__err", "")]
      ∧ ("" : String) ≠ unitErrDisplay () :=
  ⟨by decide, by decide⟩

/-- C5 (amended): `to_url` returns the failure exactly when the base does
not parse as a URL — the only failure mode; on success the result's query
pairs are the base's pairs followed by exactly two appended parameters,
`__path` holding the raw call path and `__err` holding the wire-encoded
error, where the `__err` value falls back to the empty string (not the
error's text rendering) if wire encoding fails. -/
theorem to_url_spec {CustErr : Type} (serF : CustErr → Option String)
    (e : ServerFnUrlError CustErr) (base : String) :
    (e.to_url serF base = none ↔ urlParse base = none)
    ∧ ∀ u, urlParse base = some u →
        (e.to_url serF base).map PUrl.pairs =
          some (u.pairs ++
            [("__path", e.path), ("__err", (serF e.error).getD "")]) := by
  constructor
  · unfold ServerFnUrlError.to_url
    exact Option.map_eq_none'
  · intro u hu
    unfold ServerFnUrlError.to_url
    rw [hu]
    simp only [Option.map_some']
    rw [pairs_appendPair, pairs_appendPair, List.append_assoc]
    rfl

/-- C5 witness: attaching to a base with an existing parameter appends
exactly `__path` and `__err` after it. -/
theorem to_url_witness :
    ((ServerFnUrlError.mk "p" (ServerFnErrorErr.Request "b")).to_url
        (fun err => some err.ser) "http://a/?x=1").map PUrl.pairs =
      some [("x", "1"), ("__path", "p"), ("__err", "Request|b")] :=
  ((to_url_spec (fun err => some (ServerFnErrorErr.ser err))
      (ServerFnUrlError.mk "p" (ServerFnErrorErr.Request "b"))
      "http://a/?x=1").2
    ⟨strBytes "http://a/", some (strBytes "x=1"), none⟩ (by decide)).trans
    (by decide)

/-- C6 counterexample: for a valid base that itself already carries a
`__path` parameter, `strip(attach(base, path, err))` does not restore the
base's original query pairs — stripping removes the pre-existing `__path`
entry too. -/
theorem strip_attach_counterexample :
    ((ServerFnUrlError.mk "p" (ServerFnErrorErr.Request "x")).to_url
        (fun err => some err.ser) "http://a/?__path=z").map
      (fun u2 => queryPairsOfString
        (ServerFnUrlError.strip_error_info (urlToString u2)))
      = some (some [])
    ∧ queryPairsOfString "http://a/?__path=z" = some [("__path", "z")]
    ∧ some (some ([] : List (String × String))) ≠
        some (some [("__path", "z")]) :=
  ⟨by decide, by decide, by decide⟩

/-- C6 (amended): (i) selective stripping: on a URL with the query pairs
`[a=1, __path=p, b=2, __err=e]`, `strip_error_info` yields exactly the
pairs `[a=1, b=2]`, in that order; (ii) for any valid base, path and
error, stripping the string form of `to_url`'s result yields a URL whose
query pairs equal the base's original pairs with any `__path`/`__err`
entries removed, order preserved (hence exactly the base's original pairs
whenever the base itself carries no `__path` or `__err` parameter). -/
theorem strip_attach_roundtrip :
    (queryPairsOfString (ServerFnUrlError.strip_error_info
        "https://example.com/?a=1&__path=p&b=2&__err=e") =
      some [("a", "1"), ("b", "2")])
    ∧ ∀ (base : String) (u : PUrl) (e : ServerFnUrlError ServerFnErrorErr)
        (u2 : PUrl),
        urlParse base = some u →
        e.to_url (fun err => some err.ser) base = some u2 →
        queryPairsOfString (ServerFnUrlError.strip_error_info
            (urlToString u2)) =
          some (u.pairs.filter
            (fun kv => kv.1 ≠ "__path" ∧ kv.1 ≠ "__err")) := by
  constructor
  · decide
  · intro base u e u2 hu hu2
    unfold ServerFnUrlError.to_url at hu2
    rw [hu] at hu2
    simp only [Option.map_some', Option.some.injEq] at hu2
    subst hu2
    have hu' : urlParseBytes (strBytes base) = some u := hu
    have hwfu : WfUrl u := parse_wf hu'
    have hcomp := parse_valid_components hu
    have hwfu2 : WfUrl ((u.appendPair "__path" e.path).appendPair "__err"
        ((some e.error.ser).getD "")) :=
      wf_appendPair (wf_appendPair hwfu _ _) _ _
    have hq2 := query_valid_appendPair
      (query_valid_appendPair hcomp.2.1 "__path" e.path) "__err"
      ((some e.error.ser).getD "")
    have hstem2 : ValidUtf8 ((u.appendPair "__path" e.path).appendPair "__err"
        ((some e.error.ser).getD "")).stem := by
      rw [appendPair_stem, appendPair_stem]
      exact hcomp.1
    have hf2 : ∀ f, ((u.appendPair "__path" e.path).appendPair "__err"
        ((some e.error.ser).getD "")).frag = some f → ValidUtf8 f := by
      intro f hf
      rw [appendPair_frag, appendPair_frag] at hf
      exact hcomp.2.2 f hf
    have hv2 := validUtf8_urlToStringBytes hstem2 hq2 hf2
    have hp2 := urlParse_urlToString hwfu2 hv2
    unfold ServerFnUrlError.strip_error_info
    rw [hp2]
    dsimp only
    have hpairs2 : ((u.appendPair "__path" e.path).appendPair "__err"
        ((some e.error.ser).getD "")).pairs =
        u.pairs ++ [("__path", e.path), ("__err", (some e.error.ser).getD "")] := by
      rw [pairs_appendPair, pairs_appendPair, List.append_assoc]
      rfl
    have hfilter : (((u.appendPair "__path" e.path).appendPair "__err"
        ((some e.error.ser).getD "")).pairs.filter
          (fun kv => kv.1 ≠ "__path" ∧ kv.1 ≠ "__err")) =
        u.pairs.filter (fun kv => kv.1 ≠ "__path" ∧ kv.1 ≠ "__err") := by
      rw [hpairs2, List.filter_append]
      have hrest : List.filter
          (fun kv => decide (kv.1 ≠ "__path" ∧ kv.1 ≠ "__err"))
          [("__path", e.path), ("__err", (some e.error.ser).getD "")] = [] := by
        simp [List.filter]
      rw [hrest, List.append_nil]
    rw [hfilter]
    have hwfu3 : WfUrl { (u.appendPair "__path" e.path).appendPair "__err"
        ((some e.error.ser).getD "") with
        query := some (serializePairs (u.pairs.filter
          (fun kv => kv.1 ≠ "__path" ∧ kv.1 ≠ "__err"))) } := by
      refine ⟨hwfu2.no35stem, hwfu2.no63stem, ?_, hwfu2.scheme⟩
      intro q hq hm
      simp only [Option.some.injEq] at hq
      subst hq
      exact (serializePairs_mem hm).2.1 rfl
    have hv3 : ValidUtf8 (urlToStringBytes
        { (u.appendPair "__path" e.path).appendPair "__err"
            ((some e.error.ser).getD "") with
          query := some (serializePairs (u.pairs.filter
            (fun kv => kv.1 ≠ "__path" ∧ kv.1 ≠ "__err"))) }) := by
      refine validUtf8_urlToStringBytes hstem2 ?_ hf2
      intro q hq
      simp only [Option.some.injEq] at hq
      subst hq
      exact validUtf8_serializePairs _
    have hp3 := urlParse_urlToString hwfu3 hv3
    unfold queryPairsOfString
    rw [hp3]
    simp only [Option.map_some', Option.some.injEq]
    show parsePairs (serializePairs _) = _
    rw [parsePairs_serializePairs]

/-- C6 witness: the general round-trip applied at a concrete base with an
ordinary parameter, a concrete path and a concrete error. -/
theorem strip_attach_witness :
    queryPairsOfString (ServerFnUrlError.strip_error_info (urlToString
        (((⟨strBytes "http://a/", some (strBytes "x=1"), none⟩ : PUrl).appendPair
            "__path" "p").appendPair "__err" "Request|b"))) =
      some ((⟨strBytes "http://a/", some (strBytes "x=1"), none⟩ :
          PUrl).pairs.filter
        (fun kv => kv.1 ≠ "__path" ∧ kv.1 ≠ "__err")) :=
  strip_attach_roundtrip.2 "http://a/?x=1"
    ⟨strBytes "http://a/", some (strBytes "x=1"), none⟩
    (ServerFnUrlError.mk "p" (ServerFnErrorErr.Request "b")) _
    (by decide) (by decide)

/-- C7: `strip_error_info` on a string that does not parse as a URL leaves
the string completely unchanged (a no-op, not a failure). -/
theorem strip_noop_on_unparsable (s : String) (h : urlParse s = none) :
    ServerFnUrlError.strip_error_info s = s := by
  unfold ServerFnUrlError.strip_error_info
  rw [h]

/-- C7 witness: the no-op at a concrete non-URL navigation string. -/
theorem strip_noop_witness :
    urlParse "not a url" = none
      ∧ ServerFnUrlError.strip_error_info "not a url" = "not a url" :=
  ⟨by decide, strip_noop_on_unparsable "not a url" (by decide)⟩

end ServerFnSpec
